import Mathlib

/-!
Shallow embedding of the Tullow Inventory Tracker core
(`src/server/storage.ts`, `src/server/routes.ts`, `src/server/auth.ts`,
the shared schema, and the client components that gate mutations:
`update-count-dialog.tsx`, plus the dashboard stats in `StatsCards`).

Conventions:
* JS `Map<number, T>` becomes a `List T` of records carrying their own id,
  looked up with `List.find?` on the id and written with `mapSet` (replace
  the entry with the same key in place, else append — `Map.prototype.set`).
* JS `number` becomes `Int` where subtraction can go negative (counts,
  quantities, timestamps) and `Nat` for ids.
* `new Date()` becomes an explicit `now : Int` parameter (milliseconds).
* Fallible storage methods (`throw new Error(...)`) return `Option`.
-/

namespace Tullow

/-- `users` table of `shared/schema.ts`. -/
structure User where
  id : Nat
  username : String
  password : String
  role : String
  department : String
  deriving Repr, DecidableEq

/-- `items` table of `shared/schema.ts`. `image` is the optional jsonb url. -/
structure Item where
  id : Nat
  name : String
  category : String
  subCategory : Option String
  count : Int
  lastUpdated : Int
  image : Option String
  deriving Repr, DecidableEq

/-- `issuances` table of `shared/schema.ts`.  `issuerId` is `Option` because
`insertIssuanceSchema.pick` omits `issuerId`, so `createIssuance` stores the
record without it even though the route adds it before parsing. -/
structure Issuance where
  id : Nat
  itemId : Nat
  issuerId : Option Nat
  authorizedById : Nat
  quantity : Int
  status : String
  issueDate : Int
  returnDate : Option Int
  returnedDate : Option Int
  recipientDepartment : String
  deriving Repr, DecidableEq

/-- `audits` table of `shared/schema.ts`. -/
structure Audit where
  id : Nat
  userId : Nat
  action : String
  details : String
  timestamp : Int
  deriving Repr, DecidableEq

/-- `InsertItem` (`insertItemSchema.pick`): note that it includes `count`
and `image` in addition to name/category/sub-category. -/
structure InsertItem where
  name : String
  category : String
  subCategory : Option String
  count : Int
  image : Option String
  deriving Repr, DecidableEq

/-- `InsertIssuance` (`insertIssuanceSchema.pick`): itemId, authorizedById,
quantity, status, issueDate, returnDate, recipientDepartment. -/
structure InsertIssuance where
  itemId : Nat
  authorizedById : Nat
  quantity : Int
  status : String
  issueDate : Int
  returnDate : Option Int
  recipientDepartment : String
  deriving Repr, DecidableEq

/-- The `MemStorage` state: four JS Maps plus the single shared
auto-increment counter `currentId`. -/
structure MemStorage where
  users : List User
  items : List Item
  issuances : List Issuance
  audits : List Audit
  currentId : Nat
  deriving Repr, DecidableEq

/-- `Map.prototype.set`: replace the entry with the same key in place,
otherwise append at the end (JS Maps preserve insertion order). -/
def mapSet {α : Type} (key : α → Nat) (a : α) : List α → List α
  | [] => [a]
  | x :: xs => if key x = key a then a :: xs else x :: mapSet key a xs

/-- `Map.prototype.get`. -/
def mapGet {α : Type} (key : α → Nat) (k : Nat) (l : List α) : Option α :=
  l.find? (fun x => key x == k)

-- ### MemStorage methods (src/server/storage.ts)

/-- `MemStorage.getItem`. -/
def getItem (st : MemStorage) (id : Nat) : Option Item :=
  mapGet Item.id id st.items

/-- `MemStorage.getUserByUsername`. -/
def getUserByUsername (st : MemStorage) (username : String) : Option User :=
  st.users.find? (fun u => u.username == username)

/-- `MemStorage.createUser`: `const id = this.currentId++`, role `"issuer"`. -/
def createUser (st : MemStorage) (username password department : String) :
    MemStorage × User :=
  let id := st.currentId
  let user : User := ⟨id, username, password, "issuer", department⟩
  ({ st with users := mapSet User.id user st.users, currentId := id + 1 }, user)

/-- `MemStorage.createItem`. -/
def createItem (st : MemStorage) (ins : InsertItem) (now : Int) :
    MemStorage × Item :=
  let id := st.currentId
  let item : Item :=
    ⟨id, ins.name, ins.category, ins.subCategory, ins.count, now, ins.image⟩
  ({ st with items := mapSet Item.id item st.items, currentId := id + 1 }, item)

/-- `MemStorage.updateItem`: spread of the existing item, then the supplied
`InsertItem` fields (name, category, subCategory, count, image), keeping the
id and stamping `lastUpdated`.  `none` models `throw new Error("Item not
found")`. -/
def updateItem (st : MemStorage) (id : Nat) (ins : InsertItem) (now : Int) :
    Option (MemStorage × Item) :=
  match mapGet Item.id id st.items with
  | none => none
  | some item =>
    let updated : Item :=
      { item with
        name := ins.name, category := ins.category,
        subCategory := ins.subCategory, count := ins.count,
        image := ins.image, lastUpdated := now }
    some ({ st with items := mapSet Item.id updated st.items }, updated)

/-- `MemStorage.deleteItem`: `this.items.delete(id)` — the entry is removed
from the map outright. -/
def deleteItem (st : MemStorage) (id : Nat) : MemStorage :=
  { st with items := st.items.filter (fun it => !(it.id == id)) }

/-- `MemStorage.updateItemCount`. -/
def updateItemCount (st : MemStorage) (id : Nat) (count : Int) (now : Int) :
    Option (MemStorage × Item) :=
  match mapGet Item.id id st.items with
  | none => none
  | some item =>
    let updated : Item := { item with count := count, lastUpdated := now }
    some ({ st with items := mapSet Item.id updated st.items }, updated)

/-- `MemStorage.createIssuance`: fresh id, `returnedDate: null`; `issuerId`
is absent from the parsed insert object (see `InsertIssuance`). -/
def createIssuance (st : MemStorage) (d : InsertIssuance) :
    MemStorage × Issuance :=
  let id := st.currentId
  let newIssuance : Issuance :=
    ⟨id, d.itemId, none, d.authorizedById, d.quantity, d.status,
      d.issueDate, d.returnDate, none, d.recipientDepartment⟩
  ({ st with issuances := mapSet Issuance.id newIssuance st.issuances,
             currentId := id + 1 }, newIssuance)

/-- `MemStorage.updateIssuance`: unconditionally overwrites `returnedDate`
(no check that the issuance is still open). -/
def updateIssuance (st : MemStorage) (id : Nat) (returnedDate : Int) :
    Option (MemStorage × Issuance) :=
  match mapGet Issuance.id id st.issuances with
  | none => none
  | some issuance =>
    let updated : Issuance := { issuance with returnedDate := some returnedDate }
    some ({ st with issuances := mapSet Issuance.id updated st.issuances }, updated)

/-- `MemStorage.createAudit`. -/
def createAudit (st : MemStorage) (userId : Nat) (action details : String)
    (now : Int) : MemStorage × Audit :=
  let id := st.currentId
  let newAudit : Audit := ⟨id, userId, action, details, now⟩
  ({ st with audits := mapSet Audit.id newAudit st.audits,
             currentId := id + 1 }, newAudit)

-- ### Route handlers (src/server/routes.ts)

/-- Outcome of a route handler, abstracting the HTTP layer. -/
inductive RouteResult (α : Type) where
  | ok : α → RouteResult α
  | notFound : RouteResult α
  | badRequest : RouteResult α
  | serverError : RouteResult α
  deriving Repr, DecidableEq

/-- Whether a `RouteResult` is a success. -/
def RouteResult.isOk {α : Type} : RouteResult α → Bool
  | .ok _ => true
  | _ => false

/-- JS truthiness of an optional string (`undefined` and `""` are falsy),
used by `reason ? ... : ...` in the count route and `!data.reason` in the
update-count dialog. -/
def jsTruthy : Option String → Bool
  | none => false
  | some s => !(s == "")

/-- The audit detail string built by `PATCH /api/items/:id/count`. -/
def countDetails (oldCount newCount : Int) (reason : Option String) : String :=
  match reason with
  | some r =>
    if r == "" then s!"Count updated from {oldCount} to {newCount}"
    else s!"Count updated from {oldCount} to {newCount}. Reason: {r}"
  | none => s!"Count updated from {oldCount} to {newCount}"

/-- `POST /api/items`: create the item, then audit `CREATE`. -/
def postItems (st : MemStorage) (userId : Nat) (ins : InsertItem) (now : Int) :
    MemStorage × RouteResult Item :=
  let (st1, item) := createItem st ins now
  let (st2, _) := createAudit st1 userId "CREATE" s!"Created new item: {item.name}" now
  (st2, .ok item)

/-- `PATCH /api/items/:id`: 404 when absent, else `updateItem` then audit
`UPDATE` with the updated name. -/
def patchItems (st : MemStorage) (userId itemId : Nat) (ins : InsertItem)
    (now : Int) : MemStorage × RouteResult Item :=
  match getItem st itemId with
  | none => (st, .notFound)
  | some oldItem =>
    match updateItem st oldItem.id ins now with
    | none => (st, .serverError)
    | some (st1, item) =>
      let (st2, _) := createAudit st1 userId "UPDATE" s!"Updated item: {item.name}" now
      (st2, .ok item)

/-- `DELETE /api/items/:id`: 404 when absent, else `deleteItem` then audit
`DELETE`. -/
def deleteItems (st : MemStorage) (userId itemId : Nat) (now : Int) :
    MemStorage × RouteResult Unit :=
  match getItem st itemId with
  | none => (st, .notFound)
  | some item =>
    let st1 := deleteItem st item.id
    let (st2, _) := createAudit st1 userId "DELETE" s!"Deleted item: {item.name}" now
    (st2, .ok ())

/-- `PATCH /api/items/:id/count`: `updateCountSchema` requires
`count ≥ 0`; then 404 when absent, else update the count and audit with
`countDetails` (old count read before the update). -/
def patchItemsCount (st : MemStorage) (userId itemId : Nat) (count : Int)
    (reason : Option String) (now : Int) : MemStorage × RouteResult Item :=
  if count < 0 then (st, .badRequest)
  else
    match getItem st itemId with
    | none => (st, .notFound)
    | some item =>
      match updateItemCount st item.id count now with
      | none => (st, .serverError)
      | some (st1, updated) =>
        let (st2, _) :=
          createAudit st1 userId "UPDATE" (countDetails item.count count reason) now
        (st2, .ok updated)

/-- `POST /api/issuances`: create the issuance record first, then look the
item up (404 leaves the already-created issuance behind), then decrement the
count by the issued quantity — with no stock check — and audit `ISSUE`. -/
def postIssuancesRoute (st : MemStorage) (userId : Nat) (d : InsertIssuance)
    (now : Int) : MemStorage × RouteResult Issuance :=
  let (st1, issuance) := createIssuance st d
  match getItem st1 d.itemId with
  | none => (st1, .notFound)
  | some item =>
    match updateItemCount st1 item.id (item.count - d.quantity) now with
    | none => (st1, .serverError)
    | some (st2, _) =>
      let (st3, _) :=
        createAudit st2 userId "ISSUE" s!"Issued {d.quantity} {item.name}(s)" now
      (st3, .ok issuance)

/-- `POST /api/issuances/:id/return`: stamp `returnedDate` (no open-state
check), then add the quantity back to the item count and audit `RETURN`. -/
def postIssuancesReturn (st : MemStorage) (userId issuanceId : Nat)
    (now : Int) : MemStorage × RouteResult Issuance :=
  match updateIssuance st issuanceId now with
  | none => (st, .serverError)
  | some (st1, issuance) =>
    match getItem st1 issuance.itemId with
    | none => (st1, .notFound)
    | some item =>
      match updateItemCount st1 item.id (item.count + issuance.quantity) now with
      | none => (st1, .serverError)
      | some (st2, _) =>
        let (st3, _) :=
          createAudit st2 userId "RETURN" s!"Returned {issuance.quantity} {item.name}(s)" now
        (st3, .ok issuance)

/-- `POST /api/register` (src/server/auth.ts): reject duplicate usernames,
else `createUser` (password hashing is opaque here: the hash is passed in). -/
def registerUser (st : MemStorage) (username hashedPassword department : String) :
    MemStorage × RouteResult User :=
  match getUserByUsername st username with
  | some _ => (st, .badRequest)
  | none =>
    let (st1, user) := createUser st username hashedPassword department
    (st1, .ok user)

-- ### Client: update-count dialog (src/client/src/components/update-count-dialog.tsx)

/-- Outcome of one submit of the update-count dialog. -/
inductive SubmitResult where
  | discrepancyShown (expected observed : Int)
  | reasonError
  | patched (r : RouteResult Item)
  deriving Repr, DecidableEq

/-- `handleSubmit` of the update-count dialog, composed with the
`PATCH /api/items/:id/count` request its mutation fires.  `expectedCount` is
the item count captured when the dialog opened; `showDiscrepancy` is the
dialog's flag (false on the first submit).  The first submit with a
differing count only reveals the discrepancy alert (no request); a submit
with the alert shown and a falsy reason only sets a form error (no
request); every other submit issues the PATCH. -/
def handleSubmit (st : MemStorage) (userId itemId : Nat) (expectedCount : Int)
    (showDiscrepancy : Bool) (observed : Int) (reason : Option String)
    (now : Int) : MemStorage × SubmitResult :=
  if !showDiscrepancy && !(observed == expectedCount) then
    (st, .discrepancyShown expectedCount observed)
  else if showDiscrepancy && !(jsTruthy reason) then
    (st, .reasonError)
  else
    let (st1, r) := patchItemsCount st userId itemId observed reason now
    (st1, .patched r)

-- ### Dashboard stats (StatsCards)

/-- Whether `sub` is a prefix of `l` (character lists). -/
def seqAt : List Char → List Char → Bool
  | _, [] => true
  | [], _ :: _ => false
  | c :: cs, d :: ds => c == d && seqAt cs ds

/-- Whether `sub` occurs somewhere in `l`. -/
def seqSomewhere (sub : List Char) : List Char → Bool
  | [] => seqAt [] sub
  | c :: cs => seqAt (c :: cs) sub || seqSomewhere sub cs

/-- JS `String.prototype.includes`. -/
def strIncludes (s sub : String) : Bool :=
  seqSomewhere sub.toList s.toList

/-- The dashboard's "Discrepancy Rate" source: audits whose action is
`UPDATE` and whose free-text details contain the substring
`"Inconsistency"`. -/
def discrepancyAudits (audits : List Audit) : List Audit :=
  audits.filter (fun a => a.action == "UPDATE" && strIncludes a.details "Inconsistency")

/-- Milliseconds per day, the divisor in the dashboard's duration math. -/
def msPerDay : Int := 1000 * 60 * 60 * 24

/-- `Math.floor((end.getTime() - start.getTime()) / msPerDay)` for one
issuance (`returnedDate!` is the non-null returned date). -/
def sampleDays (i : Issuance) : Int :=
  Int.fdiv (i.returnedDate.getD 0 - i.issueDate) msPerDay

/-- JS `Math.round(num / den)` for `den > 0`: `floor(num/den + 1/2)`. -/
def jsRound (num den : Int) : Int :=
  Int.fdiv (2 * num + den) (2 * den)

/-- The issuances that qualify for an item's average borrow duration:
same item, status `Temporary`, with a returned date. -/
def qualifyingIssuances (issuances : List Issuance) (itemId : Nat) : List Issuance :=
  issuances.filter (fun i =>
    i.itemId == itemId && i.status == "Temporary" && i.returnedDate.isSome)

/-- The dashboard's `averageBorrowDuration`: per item, `null` when no
qualifying issuance exists, else the name with
`Math.round(totalDays / itemIssuances.length)` where `totalDays` folds the
per-sample floored day difference; the trailing `.filter(Boolean)` drops
the nulls. -/
def averageBorrowDuration (items : List Item) (issuances : List Issuance) :
    List (String × Int) :=
  (items.map (fun item =>
    let itemIssuances := qualifyingIssuances issuances item.id
    if itemIssuances.length == 0 then none
    else
      let totalDays := itemIssuances.foldl (fun acc curr => acc + sampleDays curr) 0
      some (item.name, jsRound totalDays (itemIssuances.length : Int)))).reduceOption

/-- The average-hold-duration analytic as the spec words it: for each item,
over issuances with status Temporary that have a returned date, the
arithmetic mean (as a rational) of the per-sample floored whole-day
difference, rounded to the nearest integer; items with zero qualifying
samples are excluded rather than reported as zero. -/
def specAverageHoldDuration (items : List Item) (issuances : List Issuance) :
    List (String × Int) :=
  items.filterMap (fun item =>
    let samples := (qualifyingIssuances issuances item.id).map (fun i =>
      ⌊((i.returnedDate.getD 0 - i.issueDate : Int) : ℚ) / (msPerDay : ℚ)⌋)
    if samples.isEmpty then none
    else some (item.name, round ((samples.sum : ℚ) / (samples.length : ℚ))))

-- ### Initial state (MemStorage constructor / initializeInventory)

/-- One default inventory row. -/
def initRow (id : Nat) (name category : String) (subCategory : Option String)
    (count : Int) (now : Int) : Item :=
  ⟨id, name, category, subCategory, count, now, none⟩

/-- The `MemStorage` constructor: seeds the 24 default items with ids 1..24
drawn from `currentId`, leaving `currentId = 25`. -/
def mkInitialState (now : Int) : MemStorage where
  users := []
  items :=
    [ initRow 1 "Dell 32\" Monitor" "Monitors" (some "Dell 32\" Monitors") 3 now,
      initRow 2 "Dell 24\" Monitor" "Monitors" (some "Dell 24\" Monitors") 0 now,
      initRow 3 "Dell 30\" Monitor" "Monitors" (some "Dell 30\" Monitors") 0 now,
      initRow 4 "Dell Laptop" "Laptops" (some "Dell Laptops") 30 now,
      initRow 5 "London Laptop" "Laptops" (some "London Laptops") 9 now,
      initRow 6 "Dell Type C Charger" "Accessories" (some "Chargers") 54 now,
      initRow 7 "Dell Quietkey Keyboard" "Accessories" (some "Keyboards") 39 now,
      initRow 8 "Dell USB Optical Mouse" "Accessories" (some "Mice") 47 now,
      initRow 9 "Docking Station" "Accessories" (some "Docks") 69 now,
      initRow 10 "Hardrive" "Accessories" (some "Storage") 3 now,
      initRow 11 "Pendrive" "Accessories" (some "Storage") 16 now,
      initRow 12 "HDMI Cable" "Accessories" (some "Cables") 7 now,
      initRow 13 "iPhone 12 Case" "iPhone Accessories" (some "Cases") 25 now,
      initRow 14 "iPhone 13/14 Case" "iPhone Accessories" (some "Cases") 10 now,
      initRow 15 "iPhone XR Case" "iPhone Accessories" (some "Cases") 1 now,
      initRow 16 "iPhone 12/11 Screen Protector" "iPhone Accessories" (some "Screen Protectors") 62 now,
      initRow 17 "iPhone 13 Screen Protector" "iPhone Accessories" (some "Screen Protectors") 73 now,
      initRow 18 "iPhone XR Screen Protector" "iPhone Accessories" (some "Screen Protectors") 1 now,
      initRow 19 "iPhone Charger" "iPhone Accessories" (some "Chargers") 36 now,
      initRow 20 "iPhone Cable" "iPhone Accessories" (some "Cables") 26 now,
      initRow 21 "iPhone 12" "iPhones" none 0 now,
      initRow 22 "iPhone 13" "iPhones" none 29 now,
      initRow 23 "Logitech Headset" "Accessories" (some "Audio") 19 now,
      initRow 24 "Laptop Bag" "Accessories" (some "Bags") 22 now ]
  issuances := []
  audits := []
  currentId := 25

-- ### Storage-level mutation steps (for the shared-counter invariant)

/-- One call to a mutating `MemStorage` method. -/
inductive SOp where
  | mkUser (username password department : String)
  | mkItem (ins : InsertItem) (now : Int)
  | editItem (id : Nat) (ins : InsertItem) (now : Int)
  | dropItem (id : Nat)
  | setCount (id : Nat) (count : Int) (now : Int)
  | mkIssuance (d : InsertIssuance)
  | closeIssuance (id : Nat) (returnedDate : Int)
  | mkAudit (userId : Nat) (action details : String) (now : Int)
  deriving Repr

/-- Effect of one storage call on the state (a method that throws because
its id is absent leaves the state unchanged). -/
def applyS (st : MemStorage) : SOp → MemStorage
  | .mkUser u p d => (createUser st u p d).fst
  | .mkItem ins now => (createItem st ins now).fst
  | .editItem id ins now =>
    match updateItem st id ins now with
    | none => st
    | some (st1, _) => st1
  | .dropItem id => deleteItem st id
  | .setCount id c now =>
    match updateItemCount st id c now with
    | none => st
    | some (st1, _) => st1
  | .mkIssuance d => (createIssuance st d).fst
  | .closeIssuance id rd =>
    match updateIssuance st id rd with
    | none => st
    | some (st1, _) => st1
  | .mkAudit u a d now => (createAudit st u a d now).fst

/-- All ids present in the four collections, in storage order. -/
def allIds (st : MemStorage) : List Nat :=
  st.users.map User.id ++ st.items.map Item.id ++
    st.issuances.map Issuance.id ++ st.audits.map Audit.id

/-- The id-counter invariant: every stored id is below `currentId` and the
ids are pairwise distinct across all four collections. -/
def IdInv (st : MemStorage) : Prop :=
  (∀ i ∈ allIds st, i < st.currentId) ∧ (allIds st).Nodup

instance (st : MemStorage) : Decidable (IdInv st) := by
  unfold IdInv; infer_instance

/-- Per-kind disjointness of ids: no item shares an id with a user, an
issuance, or an audit entry. -/
def DistinctKinds (st : MemStorage) : Prop :=
  ∀ it ∈ st.items,
    (∀ u ∈ st.users, it.id ≠ u.id) ∧
    (∀ s ∈ st.issuances, it.id ≠ s.id) ∧
    (∀ a ∈ st.audits, it.id ≠ a.id)

/-- A small one-item state used to instantiate the general theorems:
a single tracked mouse with count 3, no users/issuances/audits yet,
counter at 2. -/
def oneMouseState : MemStorage :=
  ⟨[], [⟨1, "Dell USB Optical Mouse", "Accessories", some "Mice", 3, 0, none⟩], [], [], 2⟩

-- ### Helper lemmas

theorem mapSet_eq_append {α : Type} (key : α → Nat) (a : α) (l : List α)
    (h : key a ∉ l.map key) : mapSet key a l = l ++ [a] := by
  induction l with
  | nil => rfl
  | cons x xs ih =>
    simp only [List.map_cons, List.mem_cons] at h
    push_neg at h
    have hne : key x ≠ key a := fun hx => h.1 hx.symm
    simp only [mapSet, if_neg hne, ih h.2, List.cons_append]

theorem map_mapSet_of_mem {α : Type} (key : α → Nat) (a : α) (l : List α)
    (h : key a ∈ l.map key) : (mapSet key a l).map key = l.map key := by
  induction l with
  | nil => simp at h
  | cons x xs ih =>
    by_cases hx : key x = key a
    · simp [mapSet, hx]
    · simp only [List.map_cons, List.mem_cons] at h
      rcases h with h | h
      · exact absurd h.symm hx
      · simp [mapSet, hx, ih h]

theorem mapGet_some {α : Type} {key : α → Nat} {k : Nat} {l : List α} {a : α}
    (h : mapGet key k l = some a) : a ∈ l ∧ key a = k := by
  refine ⟨List.mem_of_find?_eq_some h, ?_⟩
  have := List.find?_some h
  simpa using this

-- States reached by short concrete scenarios, used by the concrete theorems.

/-- State after issuing 2 Dell 32" Monitors (item 1, stock 3) from the
seeded inventory: the issuance gets id 25. -/
def afterIssueTwo : MemStorage :=
  (postIssuancesRoute (mkInitialState 0) 7 ⟨1, 9, 2, "Temporary", 100, some 200, "Digital"⟩ 50).fst

/-- State after returning issuance 25 once. -/
def afterFirstReturn : MemStorage := (postIssuancesReturn afterIssueTwo 7 25 60).fst

/-- The second return call on the same issuance id 25. -/
def secondReturn : MemStorage × RouteResult Issuance := postIssuancesReturn afterFirstReturn 7 25 70

/-- State after a forced ("Hard Update") reconciliation on the seeded
inventory: item 1 counted 2 instead of 3, reason supplied. -/
def afterHardUpdate : MemStorage :=
  (handleSubmit (mkInitialState 0) 7 1 3 true 2 (some "Unlogged issuance") 5).fst

-- ### Claim theorems

/-- C1: the claim is violated by the code. `POST /api/issuances` performs no
stock check: issuing quantity 5 against item 1 whose count is 3 *succeeds*
(no `InsufficientStock`), creates an issuance record, appends an `ISSUE`
audit entry, and leaves the item count at `-2`. -/
theorem issue_exceeding_stock_succeeds :
    (postIssuancesRoute (mkInitialState 0) 7 ⟨1, 9, 5, "Permanent", 100, none, "Digital"⟩ 50).snd.isOk
      = true ∧
    ((getItem (postIssuancesRoute (mkInitialState 0) 7
        ⟨1, 9, 5, "Permanent", 100, none, "Digital"⟩ 50).fst 1).map Item.count) = some (-2) ∧
    (postIssuancesRoute (mkInitialState 0) 7
        ⟨1, 9, 5, "Permanent", 100, none, "Digital"⟩ 50).fst.issuances.length = 1 ∧
    (postIssuancesRoute (mkInitialState 0) 7
        ⟨1, 9, 5, "Permanent", 100, none, "Digital"⟩ 50).fst.audits.length = 1 ∧
    ((3 : Int) < 5) := by
  decide

/-- C3: the claim is violated by the code. Neither
`MemStorage.updateIssuance` nor the return route checks that the issuance
is still open: after issuing 2 units of item 1 (count 3 → 1) and returning
them once (count back to 3), the second return of issuance 25 *succeeds*
and increments the count again, to 5 — the count changes twice, not once,
and no `AlreadyReturned` failure exists. -/
theorem double_return_increments_twice :
    ((getItem afterFirstReturn 1).map Item.count) = some 3 ∧
    ((mapGet Issuance.id 25 afterFirstReturn.issuances).map Issuance.returnedDate)
      = some (some 60) ∧
    secondReturn.snd.isOk = true ∧
    ((getItem secondReturn.fst 1).map Item.count) = some 5 := by
  decide

/-- C5: the claim is violated by the code. From the seeded state, the single
operation "issue 4 units of item 1 (count 3)" drives the item's count to
`-1 < 0`: counts are not kept non-negative. -/
theorem count_driven_below_zero :
    ((getItem (postIssuancesRoute (mkInitialState 0) 7
        ⟨1, 9, 4, "Permanent", 100, none, "Digital"⟩ 50).fst 1).map Item.count) = some (-1) ∧
    ((-1 : Int) < 0) := by
  decide

/-- C8: the claim is violated by the code. After one forced Adjustment
(hard count update with a required reason), exactly one audit entry exists
and its details read "Count updated from 3 to 2. Reason: Unlogged
issuance" — yet the dashboard's `discrepancyAudits` counts 0, because it
matches the substring "Inconsistency" in the free text, which the count
route never writes, instead of using the structural event kind. -/
theorem discrepancy_rate_counts_zero_adjustments :
    (discrepancyAudits afterHardUpdate.audits).length = 0 ∧
    afterHardUpdate.audits.length = 1 ∧
    afterHardUpdate.audits.map Audit.details
      = ["Count updated from 3 to 2. Reason: Unlogged issuance"] := by
  decide

/-- C4 counterexample: reconciling item 1 of `oneMouseState` with an
observed count equal to its current count 3 is *not* a no-op: the PATCH
still fires, an audit entry "Count updated from 3 to 3" is appended, and
`lastUpdated` moves from 0 to 5. -/
theorem equal_count_reconcile_not_noop :
    (handleSubmit oneMouseState 7 1 3 false 3 none 5).fst.audits.map Audit.details
      = ["Count updated from 3 to 3"] ∧
    ((getItem (handleSubmit oneMouseState 7 1 3 false 3 none 5).fst 1).map Item.lastUpdated)
      = some 5 ∧
    ((getItem oneMouseState 1).map Item.lastUpdated) = some 0 := by
  decide

/-- C6 counterexample: `PATCH /api/items/:id` *does* change the count.
Editing item 1 of `oneMouseState` (count 3) with an insert body carrying
count 100 leaves the item with count 100. -/
theorem edit_changes_count :
    ((getItem (patchItems oneMouseState 7 1 ⟨"Dell USB Optical Mouse", "Accessories",
        some "Mice", 100, none⟩ 5).fst 1).map Item.count) = some 100 ∧
    ((getItem oneMouseState 1).map Item.count) = some 3 := by
  decide

/-- C7 counterexample: `DELETE /api/items/:id` physically erases the item:
after deleting item 1 of `oneMouseState` the items map is empty — nothing
tombstoned or retained — while the route still reports success and appends
a DELETE audit entry. -/
theorem delete_physically_erases :
    (deleteItems oneMouseState 7 1 5).fst.items = [] ∧
    (deleteItems oneMouseState 7 1 5).snd.isOk = true ∧
    getItem (deleteItems oneMouseState 7 1 5).fst 1 = none := by
  decide

/-- C2: for an existing item whose observed count differs from its current
count, the reconcile flow (update-count dialog composed with the count
route) behaves as claimed.  First conjunct: the submit with no reason
returns the Discrepancy report carrying the expected and observed counts
and returns the state untouched (no audit appended, count and last-updated
unchanged).  Second conjunct: the same submit with a non-empty reason
changes exactly this: the item's count becomes the observed count (with
last-updated stamped), exactly one audit entry is appended whose details
state the prior expected count, the new count, and the reason, and the id
counter advances; users and issuances are untouched.  The freshness
hypothesis is the id-counter invariant restated for the audit log. -/
theorem reconcile_discrepancy_requires_reason (st : MemStorage)
    (userId itemId : Nat) (item : Item) (observed : Int) (r : String)
    (now : Int) (hfind : getItem st itemId = some item)
    (hne : observed ≠ item.count) (hobs : 0 ≤ observed) (hr : r ≠ "")
    (hfresh : st.currentId ∉ st.audits.map Audit.id) :
    handleSubmit st userId itemId item.count false observed none now
      = (st, .discrepancyShown item.count observed) ∧
    handleSubmit st userId itemId item.count true observed (some r) now
      = ({ st with
             items := mapSet Item.id { item with count := observed, lastUpdated := now } st.items,
             audits := st.audits ++
               [⟨st.currentId, userId, "UPDATE",
                  s!"Count updated from {item.count} to {observed}. Reason: {r}", now⟩],
             currentId := st.currentId + 1 },
         .patched (.ok { item with count := observed, lastUpdated := now })) := by
  have hid : item.id = itemId := (mapGet_some hfind).2
  have hget2 : mapGet Item.id item.id st.items = some item := by
    rw [hid]; exact hfind
  have hrb : (r == "") = false := by simpa using hr
  have hne2 : (observed == item.count) = false := by simpa using hne
  have hnotlt : ¬ observed < 0 := not_lt.mpr hobs
  constructor
  · simp [handleSubmit, hne2]
  · simp only [handleSubmit, Bool.not_true, Bool.false_and, Bool.and_self,
      jsTruthy, hrb, Bool.not_false, Bool.true_and, Bool.and_false,
      if_false, Bool.and_true]
    simp only [patchItemsCount, if_neg hnotlt, hfind, updateItemCount, hget2,
      createAudit, countDetails, hrb, if_false]
    rw [mapSet_eq_append Audit.id _ _ hfresh]
    simp

/-- Witness for C2 at a concrete one-item state: counting 2 instead of 3
first reports the discrepancy without touching the state; resubmitting
with reason "Miscount" updates the count and appends the one audit. -/
theorem reconcile_discrepancy_requires_reason_witness :
    handleSubmit oneMouseState 7 1 3 false 2 none 5
      = (oneMouseState, .discrepancyShown 3 2) ∧
    handleSubmit oneMouseState 7 1 3 true 2 (some "Miscount") 5
      = (⟨[], [⟨1, "Dell USB Optical Mouse", "Accessories", some "Mice", 2, 5, none⟩], [],
          [⟨2, 7, "UPDATE", "Count updated from 3 to 2. Reason: Miscount", 5⟩], 3⟩,
         .patched (.ok ⟨1, "Dell USB Optical Mouse", "Accessories", some "Mice", 2, 5, none⟩)) := by
  have h := reconcile_discrepancy_requires_reason oneMouseState 7 1
    ⟨1, "Dell USB Optical Mouse", "Accessories", some "Mice", 3, 0, none⟩ 2 "Miscount" 5
    (by decide) (by decide) (by decide) (by decide) (by decide)
  exact ⟨h.1, by rw [h.2]; decide⟩

/-- C4 amended: reconciling an existing item with an observed count equal
to its current count is *not* silent: the dialog immediately fires the
PATCH, which rewrites the item (same count, fresh last-updated stamp) and
appends exactly one audit entry reading "Count updated from c to c". -/
theorem equal_count_reconcile_audits_and_stamps (st : MemStorage)
    (userId itemId : Nat) (item : Item) (now : Int)
    (hfind : getItem st itemId = some item) (hc : 0 ≤ item.count)
    (hfresh : st.currentId ∉ st.audits.map Audit.id) :
    handleSubmit st userId itemId item.count false item.count none now
      = ({ st with
             items := mapSet Item.id { item with lastUpdated := now } st.items,
             audits := st.audits ++
               [⟨st.currentId, userId, "UPDATE",
                  s!"Count updated from {item.count} to {item.count}", now⟩],
             currentId := st.currentId + 1 },
         .patched (.ok { item with lastUpdated := now })) := by
  have hid : item.id = itemId := (mapGet_some hfind).2
  have hget2 : mapGet Item.id item.id st.items = some item := by
    rw [hid]; exact hfind
  have hnotlt : ¬ item.count < 0 := not_lt.mpr hc
  simp only [handleSubmit, beq_self_eq_true, Bool.not_true, Bool.and_false,
    Bool.false_and, jsTruthy]
  simp only [patchItemsCount, if_neg hnotlt, hfind, updateItemCount, hget2,
    createAudit, countDetails]
  rw [mapSet_eq_append Audit.id _ _ hfresh]
  rfl

/-- Witness for the amended C4: verifying the matching count 3 on the
one-item state still bumps `lastUpdated` to 5 and appends one audit. -/
theorem equal_count_reconcile_audits_and_stamps_witness :
    handleSubmit oneMouseState 7 1 3 false 3 none 5
      = (⟨[], [⟨1, "Dell USB Optical Mouse", "Accessories", some "Mice", 3, 5, none⟩], [],
          [⟨2, 7, "UPDATE", "Count updated from 3 to 3", 5⟩], 3⟩,
         .patched (.ok ⟨1, "Dell USB Optical Mouse", "Accessories", some "Mice", 3, 5, none⟩)) := by
  have h := equal_count_reconcile_audits_and_stamps oneMouseState 7 1
    ⟨1, "Dell USB Optical Mouse", "Accessories", some "Mice", 3, 0, none⟩ 5
    (by decide) (by decide) (by decide)
  rw [h]; decide

/-- C6 amended: `PATCH /api/items/:id` on an existing item replaces *all*
the insert fields — name, category, sub-category, and also count and image
(`insertItemSchema` includes both) — and stamps last-updated; the count
after an edit is the count supplied in the request body (the edit form
pre-fills it with the current count), not necessarily the previous count.
One UPDATE audit entry naming the new name is appended. -/
theorem edit_replaces_all_insert_fields (st : MemStorage)
    (userId itemId : Nat) (item : Item) (ins : InsertItem) (now : Int)
    (hfind : getItem st itemId = some item)
    (hfresh : st.currentId ∉ st.audits.map Audit.id) :
    patchItems st userId itemId ins now
      = ({ st with
             items := mapSet Item.id
               ⟨item.id, ins.name, ins.category, ins.subCategory, ins.count, now, ins.image⟩
               st.items,
             audits := st.audits ++
               [⟨st.currentId, userId, "UPDATE", s!"Updated item: {ins.name}", now⟩],
             currentId := st.currentId + 1 },
         .ok ⟨item.id, ins.name, ins.category, ins.subCategory, ins.count, now, ins.image⟩) := by
  have hid : item.id = itemId := (mapGet_some hfind).2
  have hget2 : mapGet Item.id item.id st.items = some item := by
    rw [hid]; exact hfind
  simp only [patchItems, hfind, updateItem, hget2, createAudit]
  rw [mapSet_eq_append Audit.id _ _ hfresh]

/-- Witness for the amended C6: editing the mouse with a body carrying
count 10 renames it and sets the count to 10. -/
theorem edit_replaces_all_insert_fields_witness :
    patchItems oneMouseState 7 1 ⟨"Wireless Mouse", "Accessories", some "Mice", 10, none⟩ 5
      = (⟨[], [⟨1, "Wireless Mouse", "Accessories", some "Mice", 10, 5, none⟩], [],
          [⟨2, 7, "UPDATE", "Updated item: Wireless Mouse", 5⟩], 3⟩,
         .ok ⟨1, "Wireless Mouse", "Accessories", some "Mice", 10, 5, none⟩) := by
  have h := edit_replaces_all_insert_fields oneMouseState 7 1
    ⟨1, "Dell USB Optical Mouse", "Accessories", some "Mice", 3, 0, none⟩
    ⟨"Wireless Mouse", "Accessories", some "Mice", 10, none⟩ 5 (by decide) (by decide)
  rw [h]; decide

/-- C7 amended: `DELETE /api/items/:id` on an existing item physically
removes it from the items map — afterwards the item resolves to nothing,
excluded from *all* item queries, with no tombstone — while one DELETE
audit entry naming the item is appended and the issuance and audit
histories referencing its id are left in place. -/
theorem delete_removes_item_and_audits (st : MemStorage)
    (userId itemId : Nat) (item : Item) (now : Int)
    (hfind : getItem st itemId = some item)
    (hfresh : st.currentId ∉ st.audits.map Audit.id) :
    deleteItems st userId itemId now
      = ({ st with
             items := st.items.filter (fun it => !(it.id == item.id)),
             audits := st.audits ++
               [⟨st.currentId, userId, "DELETE", s!"Deleted item: {item.name}", now⟩],
             currentId := st.currentId + 1 },
         .ok ()) ∧
    getItem (deleteItems st userId itemId now).fst itemId = none := by
  have hid : item.id = itemId := (mapGet_some hfind).2
  have hmain : deleteItems st userId itemId now
      = ({ st with
             items := st.items.filter (fun it => !(it.id == item.id)),
             audits := st.audits ++
               [⟨st.currentId, userId, "DELETE", s!"Deleted item: {item.name}", now⟩],
             currentId := st.currentId + 1 },
         .ok ()) := by
    simp only [deleteItems, hfind, Tullow.deleteItem, createAudit]
    rw [mapSet_eq_append Audit.id _ _ hfresh]
  refine ⟨hmain, ?_⟩
  rw [hmain]
  simp only [getItem, mapGet]
  apply List.find?_eq_none.mpr
  intro x hx
  have hxmem := List.of_mem_filter hx
  simp only [Bool.not_eq_true'] at hxmem
  rw [hid] at hxmem
  simpa using hxmem

theorem foldl_sampleDays (l : List Issuance) (acc : Int) :
    l.foldl (fun a c => a + sampleDays c) acc = acc + (l.map sampleDays).sum := by
  induction l generalizing acc with
  | nil => simp
  | cons x xs ih => simp [ih, add_assoc]

theorem sampleDays_eq_floor (i : Issuance) :
    sampleDays i
      = ⌊((i.returnedDate.getD 0 - i.issueDate : Int) : ℚ) / (msPerDay : ℚ)⌋ := by
  have h1 : ((msPerDay : Int) : ℚ) = ((86400000 : ℕ) : ℚ) := by norm_num [msPerDay]
  rw [sampleDays, Int.fdiv_eq_ediv _ (by norm_num [msPerDay]), h1,
    Rat.floor_intCast_div_natCast]
  norm_num [msPerDay]

theorem jsRound_eq_round (t : Int) (n : Nat) (hn : 0 < n) :
    jsRound t (n : Int) = round ((t : ℚ) / (n : ℚ)) := by
  have hn0 : ((n : ℚ)) ≠ 0 := by positivity
  have hx : (t : ℚ) / (n : ℚ) + 1 / 2
      = ((2 * t + (n : Int) : Int) : ℚ) / (((2 * n : ℕ)) : ℚ) := by
    push_cast
    field_simp
    ring
  rw [jsRound, round_eq, hx, Rat.floor_intCast_div_natCast,
    Int.fdiv_eq_ediv _ (by positivity)]
  push_cast
  norm_num

/-- C9: the dashboard's average borrow duration coincides, on every item
list and issuance log, with the spec's reading: per item, over Temporary
issuances with a returned date, the arithmetic mean of the per-sample
floored whole-day difference, rounded to the nearest integer (JS
`Math.round`, i.e. floor at half up), with zero-sample items excluded from
the output rather than reported as zero. -/
theorem averageBorrowDuration_eq_specAverageHoldDuration
    (items : List Item) (issuances : List Issuance) :
    averageBorrowDuration items issuances = specAverageHoldDuration items issuances := by
  unfold averageBorrowDuration specAverageHoldDuration
  rw [List.reduceOption, List.filterMap_map]
  apply List.filterMap_congr
  intro item hmem
  simp only [Function.comp_apply, id_eq]
  cases hq : qualifyingIssuances issuances item.id with
  | nil => simp [hq]
  | cons x xs =>
    have hmap : (x :: xs).map (fun i =>
        ⌊((i.returnedDate.getD 0 - i.issueDate : Int) : ℚ) / (msPerDay : ℚ)⌋)
        = (x :: xs).map sampleDays := by
      apply List.map_congr_left
      intro a _
      exact (sampleDays_eq_floor a).symm
    rw [hmap, foldl_sampleDays, zero_add]
    have hne : ((x :: xs).length == 0) = false := by simp
    have hempty : ((x :: xs).map sampleDays).isEmpty = false := by simp
    rw [hne, hempty]
    simp only [Bool.false_eq_true, if_false]
    rw [List.length_map, List.length_cons,
      jsRound_eq_round _ (xs.length + 1) (Nat.succ_pos _)]

/-- Witness for the amended C7: deleting the one mouse empties the items
map, appends the DELETE audit, and makes the item unresolvable. -/
theorem delete_removes_item_and_audits_witness :
    deleteItems oneMouseState 7 1 5
      = (⟨[], [], [], [⟨2, 7, "DELETE", "Deleted item: Dell USB Optical Mouse", 5⟩], 3⟩,
         .ok ()) ∧
    getItem (deleteItems oneMouseState 7 1 5).fst 1 = none := by
  have h := delete_removes_item_and_audits oneMouseState 7 1
    ⟨1, "Dell USB Optical Mouse", "Accessories", some "Mice", 3, 0, none⟩ 5
    (by decide) (by decide)
  exact ⟨by rw [h.1]; decide, h.2⟩

theorem mem_allIds_users {st : MemStorage} {x : Nat}
    (hx : x ∈ st.users.map User.id) : x ∈ allIds st := by
  simp [allIds, hx]

theorem mem_allIds_items {st : MemStorage} {x : Nat}
    (hx : x ∈ st.items.map Item.id) : x ∈ allIds st := by
  simp [allIds, hx]

theorem mem_allIds_issuances {st : MemStorage} {x : Nat}
    (hx : x ∈ st.issuances.map Issuance.id) : x ∈ allIds st := by
  simp [allIds, hx]

theorem mem_allIds_audits {st : MemStorage} {x : Nat}
    (hx : x ∈ st.audits.map Audit.id) : x ∈ allIds st := by
  simp [allIds, hx]

theorem insert_mid_perm (P Q R : List Nat) (c : Nat) :
    List.Perm (P ++ (Q ++ [c]) ++ R) (c :: (P ++ Q ++ R)) := by
  have h1 : P ++ (Q ++ [c]) ++ R = (P ++ Q) ++ c :: R := by
    simp [List.append_assoc]
  have h2 : P ++ Q ++ R = (P ++ Q) ++ R := by simp [List.append_assoc]
  rw [h1, h2]
  exact List.perm_middle

theorem idStep_of_perm (st st' : MemStorage) (h : IdInv st)
    (hperm : List.Perm (allIds st') (st.currentId :: allIds st))
    (hcid : st'.currentId = st.currentId + 1) :
    IdInv st' ∧ ∀ j ∈ allIds st', j ∈ allIds st ∨ ∀ i ∈ allIds st, i < j := by
  obtain ⟨hlt, hnd⟩ := h
  have hcnot : st.currentId ∉ allIds st := fun hc => absurd (hlt _ hc) (lt_irrefl _)
  refine ⟨⟨?_, ?_⟩, ?_⟩
  · intro i hi
    rcases List.mem_cons.1 (hperm.mem_iff.1 hi) with hi' | hi'
    · omega
    · have := hlt i hi'
      omega
  · exact hperm.nodup_iff.2 (List.nodup_cons.2 ⟨hcnot, hnd⟩)
  · intro j hj
    rcases List.mem_cons.1 (hperm.mem_iff.1 hj) with hj' | hj'
    · exact Or.inr (fun i hi => hj' ▸ hlt i hi)
    · exact Or.inl hj'

theorem idStep_of_sublist (st st' : MemStorage) (h : IdInv st)
    (hsub : List.Sublist (allIds st') (allIds st))
    (hcid : st'.currentId = st.currentId) :
    IdInv st' ∧ ∀ j ∈ allIds st', j ∈ allIds st ∨ ∀ i ∈ allIds st, i < j := by
  refine ⟨⟨fun i hi => hcid ▸ h.1 i (hsub.subset hi), h.2.sublist hsub⟩,
    fun j hj => Or.inl (hsub.subset hj)⟩

theorem sharedCounterStep (st : MemStorage) (op : SOp) (h : IdInv st) :
    IdInv (applyS st op) ∧
      ∀ j ∈ allIds (applyS st op), j ∈ allIds st ∨ ∀ i ∈ allIds st, i < j := by
  have hfreshU : st.currentId ∉ st.users.map User.id :=
    fun hc => absurd (h.1 _ (mem_allIds_users hc)) (lt_irrefl _)
  have hfreshI : st.currentId ∉ st.items.map Item.id :=
    fun hc => absurd (h.1 _ (mem_allIds_items hc)) (lt_irrefl _)
  have hfreshS : st.currentId ∉ st.issuances.map Issuance.id :=
    fun hc => absurd (h.1 _ (mem_allIds_issuances hc)) (lt_irrefl _)
  have hfreshA : st.currentId ∉ st.audits.map Audit.id :=
    fun hc => absurd (h.1 _ (mem_allIds_audits hc)) (lt_irrefl _)
  cases op with
  | mkUser u p d =>
    apply idStep_of_perm st _ h _ rfl
    simp only [applyS, createUser]
    rw [mapSet_eq_append User.id _ _ hfreshU]
    simp [allIds, List.append_assoc]
  | mkItem ins now =>
    apply idStep_of_perm st _ h _ rfl
    simp only [applyS, createItem]
    rw [mapSet_eq_append Item.id _ _ hfreshI]
    simpa [allIds, List.append_assoc] using
      insert_mid_perm (st.users.map User.id) (st.items.map Item.id)
        (st.issuances.map Issuance.id ++ st.audits.map Audit.id) st.currentId
  | mkIssuance d =>
    apply idStep_of_perm st _ h _ rfl
    simp only [applyS, createIssuance]
    rw [mapSet_eq_append Issuance.id _ _ hfreshS]
    simpa [allIds, List.append_assoc] using
      insert_mid_perm (st.users.map User.id ++ st.items.map Item.id)
        (st.issuances.map Issuance.id) (st.audits.map Audit.id) st.currentId
  | mkAudit u a d now =>
    apply idStep_of_perm st _ h _ rfl
    simp only [applyS, createAudit]
    rw [mapSet_eq_append Audit.id _ _ hfreshA]
    simpa [allIds, List.append_assoc] using
      insert_mid_perm (st.users.map User.id ++ st.items.map Item.id ++
        st.issuances.map Issuance.id) (st.audits.map Audit.id) [] st.currentId
  | editItem id ins now =>
    cases hg : mapGet Item.id id st.items with
    | none =>
      simp only [applyS, updateItem, hg]
      exact ⟨h, fun j hj => Or.inl hj⟩
    | some item =>
      simp only [applyS, updateItem, hg]
      have hm : (mapSet Item.id
          { item with
            name := ins.name,
            category := ins.category,
            subCategory := ins.subCategory,
            count := ins.count,
            image := ins.image,
            lastUpdated := now } st.items).map Item.id
          = st.items.map Item.id :=
        map_mapSet_of_mem _ _ _
          (by simpa using List.mem_map_of_mem Item.id (mapGet_some hg).1)
      have heq : allIds { st with
          items := mapSet Item.id
            { item with
              name := ins.name,
              category := ins.category,
              subCategory := ins.subCategory,
              count := ins.count,
              image := ins.image,
              lastUpdated := now } st.items } = allIds st := by
        simp [allIds, hm]
      exact idStep_of_sublist st _ h (by rw [heq]) rfl
  | setCount id c now =>
    cases hg : mapGet Item.id id st.items with
    | none =>
      simp only [applyS, updateItemCount, hg]
      exact ⟨h, fun j hj => Or.inl hj⟩
    | some item =>
      simp only [applyS, updateItemCount, hg]
      have hm : (mapSet Item.id
          { item with
            count := c,
            lastUpdated := now } st.items).map Item.id
          = st.items.map Item.id :=
        map_mapSet_of_mem _ _ _
          (by simpa using List.mem_map_of_mem Item.id (mapGet_some hg).1)
      have heq : allIds { st with
          items := mapSet Item.id
            { item with
              count := c,
              lastUpdated := now } st.items } = allIds st := by
        simp [allIds, hm]
      exact idStep_of_sublist st _ h (by rw [heq]) rfl
  | closeIssuance id rd =>
    cases hg : mapGet Issuance.id id st.issuances with
    | none =>
      simp only [applyS, updateIssuance, hg]
      exact ⟨h, fun j hj => Or.inl hj⟩
    | some issuance =>
      simp only [applyS, updateIssuance, hg]
      have hm : (mapSet Issuance.id
          { issuance with
            returnedDate := some rd } st.issuances).map Issuance.id
          = st.issuances.map Issuance.id :=
        map_mapSet_of_mem _ _ _
          (by simpa using List.mem_map_of_mem Issuance.id (mapGet_some hg).1)
      have heq : allIds { st with
          issuances := mapSet Issuance.id
            { issuance with
              returnedDate := some rd } st.issuances } = allIds st := by
        simp [allIds, hm]
      exact idStep_of_sublist st _ h (by rw [heq]) rfl
  | dropItem id =>
    have hsub : List.Sublist (allIds (applyS st (SOp.dropItem id))) (allIds st) := by
      simp only [applyS, Tullow.deleteItem]
      unfold allIds
      refine List.Sublist.append (List.Sublist.append (List.Sublist.append ?_ ?_) ?_) ?_
      · exact List.Sublist.refl _
      · exact ((List.filter_sublist _).map Item.id)
      · exact List.Sublist.refl _
      · exact List.Sublist.refl _
    exact idStep_of_sublist st _ h hsub rfl

theorem distinctKinds_of_idInv (st : MemStorage) (h : IdInv st) : DistinctKinds st := by
  have hnd := h.2
  simp only [allIds, List.append_assoc, List.nodup_append, List.disjoint_left,
    List.mem_append] at hnd
  obtain ⟨hU, ⟨hI, ⟨hS, hA, hSA⟩, hIrest⟩, hUrest⟩ := hnd
  intro it hit
  have hitm : it.id ∈ st.items.map Item.id := List.mem_map_of_mem Item.id hit
  refine ⟨?_, ?_, ?_⟩
  · intro u hu heq
    have hum : it.id ∈ st.users.map User.id := by
      rw [heq]; exact List.mem_map_of_mem User.id hu
    exact (hUrest hum) (Or.inl hitm)
  · intro s hs heq
    have hsm : it.id ∈ st.issuances.map Issuance.id := by
      rw [heq]; exact List.mem_map_of_mem Issuance.id hs
    exact (hIrest hitm) (Or.inl hsm)
  · intro a ha heq
    have ham : it.id ∈ st.audits.map Audit.id := by
      rw [heq]; exact List.mem_map_of_mem Audit.id ha
    exact (hIrest hitm) (Or.inr ham)

/-- C10: every creating storage method (`createUser`, `createItem`,
`createIssuance`, `createAudit`) draws its id from the one shared
`currentId` counter.  Stated as preservation: if all stored ids are below
the counter and pairwise distinct across the four collections (`IdInv`,
which the seeded constructor state satisfies), then after any storage
mutation the invariant still holds, no item shares an id with a user, an
issuance, or an audit entry (`DistinctKinds`), and any id new to the state
strictly exceeds every id already present — so ids are unique across all
four collections and strictly increasing in global creation order. -/
theorem shared_counter_unique_increasing_ids (st : MemStorage) (op : SOp)
    (h : IdInv st) :
    IdInv (applyS st op) ∧ DistinctKinds (applyS st op) ∧
      ∀ j ∈ allIds (applyS st op), j ∈ allIds st ∨ ∀ i ∈ allIds st, i < j := by
  obtain ⟨h1, h2⟩ := sharedCounterStep st op h
  exact ⟨h1, distinctKinds_of_idInv _ h1, h2⟩

/-- Witness for C10 at the seeded constructor state (its 24 items hold ids
1..24 with the counter at 25, satisfying `IdInv` by computation) under a
`createUser` call. -/
theorem shared_counter_unique_increasing_ids_witness :
    IdInv (applyS (mkInitialState 0) (SOp.mkUser "admin" "pw" "Digital")) ∧
    DistinctKinds (applyS (mkInitialState 0) (SOp.mkUser "admin" "pw" "Digital")) ∧
    ∀ j ∈ allIds (applyS (mkInitialState 0) (SOp.mkUser "admin" "pw" "Digital")),
      j ∈ allIds (mkInitialState 0) ∨ ∀ i ∈ allIds (mkInitialState 0), i < j :=
  shared_counter_unique_increasing_ids (mkInitialState 0) _ (by decide)

end Tullow
